import Mathlib

/-!
Verification of the diagram-construction toolkit described in spec.md.

The repository's Python files under src/diagrams/ are diagram descriptions:
they call `Diagram`, `Cluster`, `Edge` and node constructors of the diagrams
library, whose graph/scope/serializer machinery is not part of src/. The
machinery is therefore modelled here from the spec (sections 3, 4, 5, 7),
and the claims are settled against that model. The category taxonomy is
taken from the node constructors the source files import.
-/

namespace DiagramsModel

/-- Modelled from the spec: edge attributes (spec section 3, Edge: label,
color, line style, direction). Every attribute is optional, matching source
calls such as `Edge(style="dashed", color="gray")` that omit the label. -/
structure Attrs where
  label : Option String
  color : Option String
  style : Option String
  direction : Option String
deriving Repr, DecidableEq

/-- Modelled from the spec: an Edge records source Node, target Node and its
attributes; nodes are referenced by identity (spec section 3). -/
structure Edge where
  src : Nat
  tgt : Nat
  attrs : Attrs
deriving Repr, DecidableEq

mutual
/-- Modelled from the spec: the finalized Cluster tree (spec section 3):
a tree whose leaves are Nodes (identity, label, category) and whose inner
vertices are Clusters (label, ordered children). -/
inductive CTree where
  | node (id : Nat) (label : String) (cat : String) : CTree
  | cluster (label : String) (children : CForest) : CTree
/-- Modelled from the spec: an ordered collection of child Nodes/Clusters
(spec section 3, Cluster). -/
inductive CForest where
  | nil : CForest
  | cons (hd : CTree) (tl : CForest) : CForest
end

/-- Append two forests, preserving order. -/
def CForest.app : CForest → CForest → CForest
  | .nil, g => g
  | .cons t ts, g => .cons t (ts.app g)

/-- The one-element forest. -/
def CForest.one (t : CTree) : CForest := .cons t .nil

/-- Convert a list of children, given in reverse creation order (as frames
accumulate them), into a forest in creation order. -/
def forestOfRev (l : List CTree) : CForest :=
  l.foldl (fun acc t => CForest.cons t acc) CForest.nil

/-- The recognized category taxonomy: the node constructors imported by the
source files (ELB, InternetGateway, NATGateway, VPC, PublicSubnet,
PrivateSubnet, ECS, Fargate, RDS, ElastiCache, S3, Cloudwatch, SNS,
AutoScaling, Blank). -/
def recognizedCategories : List String :=
  ["ELB", "InternetGateway", "NATGateway", "VPC", "PublicSubnet",
   "PrivateSubnet", "ECS", "Fargate", "RDS", "ElastiCache", "S3",
   "Cloudwatch", "SNS", "AutoScaling", "Blank"]

/-- Modelled from the spec: the icon/category asset resolver (spec section
6): maps a recognized category to an asset reference and rejects the rest. -/
def resolveIcon (c : String) : Option String :=
  if recognizedCategories.contains c then some ("assets/" ++ c) else none

/-- Modelled from the spec: the error taxonomy (spec section 7), plus the
validation error of spec section 4.4 for sequence-to-sequence connects. -/
inductive Err where
  | scopeConflict
  | unknownCategory
  | validationError
  | renderFailure
deriving Repr, DecidableEq

/-- Modelled from the spec: a scope-stack frame is either the open Diagram
(title, layout direction, output filename) or an open Cluster (label),
together with the children created while it was on top (spec section 4.1).
Children are stored in reverse creation order. -/
inductive FrameKind where
  | diagram (title : String) (dir : String) (filename : String)
  | cluster (label : String)
deriving Repr, DecidableEq

structure Frame where
  kind : FrameKind
  childrenRev : List CTree

/-- Is this frame a Diagram frame? -/
def Frame.isDiagram (f : Frame) : Bool :=
  match f.kind with
  | .diagram _ _ _ => true
  | .cluster _ => false

/-- Modelled from the spec: a finalized Diagram (spec section 3): title,
layout direction, output filename, root cluster contents, full edge list. -/
structure FinalDiagram where
  title : String
  dir : String
  filename : String
  root : CForest
  edges : List Edge

/-- Modelled from the spec: the whole builder state: the scope stack (top
of stack at the head of the list), the id counter for node handles, the ids
of the nodes created in the currently open Diagram, the Diagram's edge list
in insertion order, and the image files emitted so far (path and rendered
description). -/
structure BuildState where
  stack : List Frame
  nextId : Nat
  nodeIds : List Nat
  edges : List Edge
  images : List (String × String)

def initState : BuildState :=
  { stack := [], nextId := 0, nodeIds := [], edges := [], images := [] }

/-- Modelled from the spec: a connect endpoint is a single Node handle or an
ordered sequence of Node handles (spec section 4.4). -/
inductive EndPt where
  | single (n : Nat) : EndPt
  | seq (ns : List Nat) : EndPt
deriving Repr, DecidableEq

/-- The node ids an endpoint mentions. -/
def EndPt.ids : EndPt → List Nat
  | .single n => [n]
  | .seq ns => ns

/-- Broadcast pairing of endpoints (spec section 4.4): a sequence of length
k against a single node produces k ordered pairs, preserving sequence
order. Both sides being sequences is rejected before this function runs. -/
def pairsOf : EndPt → EndPt → List (Nat × Nat)
  | .single a, .single b => [(a, b)]
  | .single a, .seq bs => bs.map (fun b => (a, b))
  | .seq as, .single b => as.map (fun a => (a, b))
  | .seq _, .seq _ => []

/-- Modelled from the spec: one line of the serialized textual description
handed to the external layout engine (spec section 4.5): global attribute
lines, named sub-region delimiters, vertices, and directed connections. -/
inductive SLine where
  | attr (key : String) (value : String) : SLine
  | subOpen (label : String) : SLine
  | subClose : SLine
  | vertex (id : Nat) (label : String) (cat : String) : SLine
  | conn (src : Nat) (tgt : Nat) (attrs : Attrs) : SLine
deriving Repr, DecidableEq

mutual
/-- Modelled from the spec: depth-first walk of the Cluster tree in creation
order (spec section 4.5): a Node becomes one vertex line, a Cluster becomes
a named sub-region enclosing the serialization of its children. -/
def serializeTree : CTree → List SLine
  | .node i l c => [SLine.vertex i l c]
  | .cluster l cs => SLine.subOpen l :: (serializeForest cs ++ [SLine.subClose])
def serializeForest : CForest → List SLine
  | .nil => []
  | .cons t ts => serializeTree t ++ serializeForest ts
end

/-- The connection line a stored Edge serializes to. -/
def Edge.line (e : Edge) : SLine := SLine.conn e.src e.tgt e.attrs

/-- Modelled from the spec: the serializer (spec section 4.5): the Diagram's
global attributes at the top level, then the depth-first Cluster-tree walk,
then one directed connection per Edge in insertion order. -/
def serialize (d : FinalDiagram) : List SLine :=
  SLine.attr "title" d.title :: SLine.attr "dir" d.dir ::
    (serializeForest d.root ++ d.edges.map Edge.line)

/-- Render an optional attribute deterministically: nothing when absent. -/
def optText (key : String) : Option String → String
  | none => ""
  | some v => " " ++ key ++ "=" ++ v

def attrsText (a : Attrs) : String :=
  optText "label" a.label ++ optText "color" a.color ++
    optText "style" a.style ++ optText "dir" a.direction

/-- Fixed textual form of one serialized line. -/
def lineText : SLine → String
  | .attr k v => "set " ++ k ++ " " ++ v
  | .subOpen l => "subregion " ++ l
  | .subClose => "endsubregion"
  | .vertex i l c =>
      "vertex " ++ toString i ++ " label=" ++ l ++ " icon=" ++
        ((resolveIcon c).getD "missing")
  | .conn a b e => "conn " ++ toString a ++ " " ++ toString b ++ attrsText e

/-- The byte-level description of a finalized Diagram: its serialized lines
joined by newlines. A pure function of the finalized graph. -/
def descriptionOf (d : FinalDiagram) : String :=
  String.intercalate "\n" ((serialize d).map lineText)

/-- Modelled from the spec: openDiagram (spec section 4.1): fails with
ScopeConflict if a Diagram is already open (the stack is nonempty);
otherwise pushes a new Diagram frame. -/
def openDiagram (title dir filename : String) (s : BuildState) :
    Option Err × BuildState :=
  match s.stack with
  | [] =>
      (none, { s with stack := [{ kind := .diagram title dir filename,
                                  childrenRev := [] }] })
  | _ :: _ => (some .scopeConflict, s)

/-- Modelled from the spec: openCluster (spec section 4.1): fails with
ScopeConflict if no Diagram is open; otherwise pushes a Cluster frame, to be
attached as a child of the frame below it when it closes. -/
def openCluster (label : String) (s : BuildState) : Option Err × BuildState :=
  match s.stack with
  | [] => (some .scopeConflict, s)
  | _ :: _ =>
      (none, { s with stack := { kind := .cluster label, childrenRev := [] }
                        :: s.stack })

/-- Modelled from the spec: createNode (spec section 4.2): fails with
ScopeConflict if no Diagram is open, with UnknownCategory if the category is
not recognized; otherwise attaches a new Node as a child of the top frame
and returns its handle (here: the deterministic id counter). -/
def createNode (label cat : String) (s : BuildState) :
    Option Err × BuildState :=
  match s.stack with
  | [] => (some .scopeConflict, s)
  | f :: rest =>
      if recognizedCategories.contains cat then
        (none,
         { s with
             stack := { f with childrenRev :=
                          CTree.node s.nextId label cat :: f.childrenRev }
                        :: rest,
             nextId := s.nextId + 1,
             nodeIds := s.nodeIds ++ [s.nextId] })
      else (some .unknownCategory, s)

/-- Modelled from the spec: connect (spec sections 4.4 and 9): validated up
front to reject sequence-to-sequence calls; requires an open Diagram and
endpoints belonging to it; appends one edge per broadcast pairing to the
Diagram's edge list and has no other side effect. -/
def connect (src tgt : EndPt) (a : Attrs) (s : BuildState) :
    Option Err × BuildState :=
  match src, tgt with
  | .seq _, .seq _ => (some .validationError, s)
  | _, _ =>
      match s.stack with
      | [] => (some .scopeConflict, s)
      | _ :: _ =>
          if (src.ids ++ tgt.ids).all (fun n => s.nodeIds.contains n) then
            let new := (pairsOf src tgt).map
              (fun p => { src := p.1, tgt := p.2, attrs := a : Edge })
            (none, { s with edges := s.edges ++ new })
          else (some .validationError, s)

/-- Modelled from the spec: close (spec sections 4.1 and 4.6): fails with
ScopeConflict when the stack has no open frame; closing a Cluster frame
attaches it as a child of the frame below; closing the Diagram frame
finalizes the graph, serializes it and writes the image file named from the
configured filename. The layout engine collaborator is opaque and modelled
as always succeeding. -/
def close (s : BuildState) : Option Err × BuildState :=
  match s.stack with
  | [] => (some .scopeConflict, s)
  | f :: rest =>
      match f.kind with
      | .cluster l =>
          match rest with
          | [] => (some .scopeConflict, s)
          | g :: rest2 =>
              (none, { s with stack :=
                         { g with childrenRev :=
                             CTree.cluster l (forestOfRev f.childrenRev)
                               :: g.childrenRev } :: rest2 })
      | .diagram t dir fn =>
          let d : FinalDiagram :=
            { title := t, dir := dir, filename := fn,
              root := forestOfRev f.childrenRev, edges := s.edges }
          (none, { stack := rest, nextId := s.nextId, nodeIds := [],
                   edges := [],
                   images := s.images ++ [(fn ++ ".png", descriptionOf d)] })

/-- Modelled from the spec: one construction-sequence operation. -/
inductive Op where
  | openDiagram (title dir filename : String) : Op
  | openCluster (label : String) : Op
  | createNode (label cat : String) : Op
  | connect (src tgt : EndPt) (a : Attrs) : Op
  | close : Op
deriving Repr, DecidableEq

/-- Dispatch one operation on the builder state. -/
def applyOp : Op → BuildState → Option Err × BuildState
  | .openDiagram t d f, s => openDiagram t d f s
  | .openCluster l, s => openCluster l s
  | .createNode l c, s => createNode l c s
  | .connect a b e, s => connect a b e s
  | .close, s => close s

/-- The state after one operation (a failing operation leaves the state
unchanged, which is proved below, so the run continues from it). -/
def step (s : BuildState) (op : Op) : BuildState := (applyOp op s).2

/-- Run a construction sequence from a state. -/
def runOps (ops : List Op) (s : BuildState) : BuildState := ops.foldl step s

/-- The well-formed stack shapes of spec section 3: read from bottom to top
the stack is always Diagram then Clusters, i.e. with the top at the head of
the list, Cluster frames followed by one Diagram frame at the bottom. -/
def shapeOK : List Frame → Bool
  | [] => true
  | [f] => f.isDiagram
  | f :: g :: rest => !f.isDiagram && shapeOK (g :: rest)

/-- A chain of nested Clusters of depth equal to the label list, around a
given innermost tree. -/
def clusterChain : List String → CTree → CTree
  | [], t => t
  | l :: ls, t => .cluster l (CForest.one (clusterChain ls t))

/-- Is a serialized line a directed connection? -/
def isConn : SLine → Bool
  | .conn _ _ _ => true
  | _ => false

/-- Structural reading of a serialized line list back into a Cluster
forest: sub-region delimiters are matched against a stack, vertices become
Nodes of the forest under construction. Used to state that serialization
nests sub-regions exactly as the Cluster tree nests. -/
def decodeAux : List SLine → List (String × CForest) → CForest → Option CForest
  | [], [], acc => some acc
  | [], _ :: _, _ => none
  | SLine.vertex i l c :: rest, stk, acc =>
      decodeAux rest stk (acc.app (CForest.one (CTree.node i l c)))
  | SLine.subOpen l :: rest, stk, acc => decodeAux rest ((l, acc) :: stk) .nil
  | SLine.subClose :: rest, (l, prev) :: stk, acc =>
      decodeAux rest stk (prev.app (CForest.one (CTree.cluster l acc)))
  | SLine.subClose :: _, [], _ => none
  | SLine.attr _ _ :: _, _, _ => none
  | SLine.conn _ _ _ :: _, _, _ => none

def decodeForest (ls : List SLine) : Option CForest := decodeAux ls [] .nil

theorem CForest.nil_app (g : CForest) : CForest.nil.app g = g := rfl

theorem CForest.app_nil (f : CForest) : f.app .nil = f := by
  match f with
  | .nil => rfl
  | .cons t ts => rw [CForest.app, CForest.app_nil ts]

theorem CForest.app_assoc (f g h : CForest) :
    (f.app g).app h = f.app (g.app h) := by
  match f with
  | .nil => rfl
  | .cons t ts => rw [CForest.app, CForest.app, CForest.app,
      CForest.app_assoc ts]

theorem CForest.one_app (t : CTree) (g : CForest) :
    (CForest.one t).app g = .cons t g := rfl

mutual
theorem decodeAux_serializeTree (t : CTree) (rest : List SLine)
    (stk : List (String × CForest)) (acc : CForest) :
    decodeAux (serializeTree t ++ rest) stk acc =
      decodeAux rest stk (acc.app (CForest.one t)) := by
  match t with
  | .node i l c => simp [serializeTree, decodeAux]
  | .cluster l cs =>
    have ih := decodeAux_serializeForest cs (SLine.subClose :: rest)
      ((l, acc) :: stk) .nil
    rw [CForest.nil_app] at ih
    simp only [serializeTree, List.append_eq, List.cons_append,
      List.append_assoc, List.singleton_append, List.nil_append, decodeAux]
    rw [ih]
    simp only [decodeAux]
theorem decodeAux_serializeForest (f : CForest) (rest : List SLine)
    (stk : List (String × CForest)) (acc : CForest) :
    decodeAux (serializeForest f ++ rest) stk acc =
      decodeAux rest stk (acc.app f) := by
  match f with
  | .nil => simp [serializeForest, CForest.app_nil]
  | .cons t ts =>
    have ih1 := decodeAux_serializeTree t (serializeForest ts ++ rest) stk acc
    have ih2 := decodeAux_serializeForest ts rest stk (acc.app (CForest.one t))
    simp only [serializeForest, List.append_assoc]
    rw [ih1, ih2, CForest.app_assoc, CForest.one_app]
end

theorem decodeForest_serializeForest (f : CForest) :
    decodeForest (serializeForest f) = some f := by
  have h := decodeAux_serializeForest f [] [] .nil
  simpa [decodeForest, decodeAux, CForest.nil_app] using h

theorem replicate_snoc {α : Type} (n : Nat) (a : α) :
    List.replicate n a ++ [a] = a :: List.replicate n a := by
  induction n with
  | zero => rfl
  | succ n ih => simp [List.replicate_succ, ih]

theorem serializeTree_clusterChain (ls : List String) (t : CTree) :
    serializeTree (clusterChain ls t) =
      ls.map SLine.subOpen ++ serializeTree t ++
        List.replicate ls.length SLine.subClose := by
  induction ls with
  | nil => simp [clusterChain]
  | cons l ls ih =>
      have h1 : serializeForest (CForest.one (clusterChain ls t)) =
          serializeTree (clusterChain ls t) ++ [] := rfl
      simp only [clusterChain, serializeTree, h1, List.append_nil, ih,
        List.map_cons, List.length_cons, List.cons_append, List.append_assoc,
        List.replicate_succ]
      rw [← List.append_assoc, replicate_snoc]
      simp [List.append_assoc]

mutual
theorem filter_isConn_serializeTree (t : CTree) :
    (serializeTree t).filter isConn = [] := by
  match t with
  | .node i l c => simp [serializeTree, isConn]
  | .cluster l cs =>
      have ih := filter_isConn_serializeForest cs
      simp [serializeTree, isConn, List.filter_append, ih]
theorem filter_isConn_serializeForest (f : CForest) :
    (serializeForest f).filter isConn = [] := by
  match f with
  | .nil => rfl
  | .cons t ts =>
      have ih1 := filter_isConn_serializeTree t
      have ih2 := filter_isConn_serializeForest ts
      simp [serializeForest, List.filter_append, ih1, ih2]
end

theorem filter_isConn_lines (es : List Edge) :
    (es.map Edge.line).filter isConn = es.map Edge.line := by
  induction es with
  | nil => rfl
  | cons e es ih => simp [Edge.line, isConn, ih]

theorem serialize_filter_isConn (d : FinalDiagram) :
    (serialize d).filter isConn = d.edges.map Edge.line := by
  simp [serialize, isConn, List.filter_append, filter_isConn_serializeForest,
    filter_isConn_lines]

theorem connect_single_single (x y : Nat) (a : Attrs) (st : BuildState)
    (hstack : st.stack ≠ [])
    (hx : st.nodeIds.contains x = true) (hy : st.nodeIds.contains y = true) :
    connect (.single x) (.single y) a st =
      (none, { st with edges := st.edges ++ [Edge.mk x y a] }) := by
  match hst : st.stack with
  | [] => exact absurd hst hstack
  | f :: r =>
      have hx2 : x ∈ st.nodeIds := by simpa using hx
      have hy2 : y ∈ st.nodeIds := by simpa using hy
      simp [connect, hst, EndPt.ids, pairsOf, hx2, hy2]

theorem connect_single_seq (x : Nat) (l : List Nat) (a : Attrs)
    (st : BuildState) (hstack : st.stack ≠ [])
    (hx : st.nodeIds.contains x = true)
    (hl : ∀ n ∈ l, st.nodeIds.contains n = true) :
    connect (.single x) (.seq l) a st =
      (none, { st with edges := st.edges ++ l.map (fun n => Edge.mk x n a) })
      := by
  match hst : st.stack with
  | [] => exact absurd hst hstack
  | f :: r =>
      have hx2 : x ∈ st.nodeIds := by simpa using hx
      have hl2 : ∀ n ∈ l, n ∈ st.nodeIds := by
        intro n hn
        simpa using hl n hn
      simp [connect, hst, EndPt.ids, pairsOf, hx2, hl2, Function.comp]
      rw [if_pos hl2]
      simp [Function.comp]

theorem connect_seq_single (l : List Nat) (y : Nat) (a : Attrs)
    (st : BuildState) (hstack : st.stack ≠ [])
    (hy : st.nodeIds.contains y = true)
    (hl : ∀ n ∈ l, st.nodeIds.contains n = true) :
    connect (.seq l) (.single y) a st =
      (none, { st with edges := st.edges ++ l.map (fun n => Edge.mk n y a) })
      := by
  match hst : st.stack with
  | [] => exact absurd hst hstack
  | f :: r =>
      have hy2 : y ∈ st.nodeIds := by simpa using hy
      have hl2 : ∀ n ∈ l, n ∈ st.nodeIds := by
        intro n hn
        simpa using hl n hn
      simp [connect, hst, EndPt.ids, pairsOf, hy2, hl2, Function.comp]
      rw [if_pos hl2]
      simp [Function.comp]

theorem connect_stack (a b : EndPt) (e : Attrs) (st : BuildState) :
    (connect a b e st).2.stack = st.stack := by
  cases a <;> cases b <;> cases hst : st.stack <;>
    simp [connect, hst] <;> (try split) <;> (try simp [hst])

theorem applyOp_none_or_eq (op : Op) (st : BuildState) :
    (applyOp op st).1 = none ∨ (applyOp op st).2 = st := by
  cases op with
  | openDiagram t d fn => cases hst : st.stack <;> simp [applyOp, openDiagram, hst]
  | openCluster l => cases hst : st.stack <;> simp [applyOp, openCluster, hst]
  | createNode l c =>
      cases hst : st.stack with
      | nil => simp [applyOp, createNode, hst]
      | cons f r =>
          by_cases hc : c ∈ recognizedCategories <;>
            simp [applyOp, createNode, hst, hc]
  | connect a b e =>
      cases a <;> cases b <;> cases hst : st.stack <;>
        simp [applyOp, connect, hst] <;> (try split) <;> (try simp)
  | close =>
      cases hst : st.stack with
      | nil => simp [applyOp, close, hst]
      | cons f r =>
          cases hk : f.kind with
          | diagram t d fn => simp [applyOp, close, hst, hk]
          | cluster l =>
              cases r with
              | nil => simp [applyOp, close, hst, hk]
              | cons g r2 => simp [applyOp, close, hst, hk]

theorem applyOp_error_unchanged (op : Op) (st : BuildState) (e : Err)
    (h : (applyOp op st).1 = some e) : (applyOp op st).2 = st := by
  rcases applyOp_none_or_eq op st with h2 | h2
  · rw [h] at h2
    exact absurd h2 (by simp)
  · exact h2

theorem shapeOK_cons_congr {f g : Frame} (h : f.isDiagram = g.isDiagram)
    (r : List Frame) : shapeOK (f :: r) = shapeOK (g :: r) := by
  cases r <;> simp [shapeOK, h]

theorem step_shapeOK (op : Op) (st : BuildState)
    (h : shapeOK st.stack = true) : shapeOK (step st op).stack = true := by
  cases op with
  | openDiagram t d fn =>
      cases hst : st.stack with
      | nil =>
          have hstep : step st (Op.openDiagram t d fn) =
              { st with stack := [{ kind := .diagram t d fn,
                                    childrenRev := [] }] } := by
            simp [step, applyOp, openDiagram, hst]
          rw [hstep]
          simp [shapeOK, Frame.isDiagram]
      | cons f r =>
          have hstep : step st (Op.openDiagram t d fn) = st := by
            simp [step, applyOp, openDiagram, hst]
          rw [hstep]
          exact h
  | openCluster l =>
      cases hst : st.stack with
      | nil =>
          have hstep : step st (Op.openCluster l) = st := by
            simp [step, applyOp, openCluster, hst]
          rw [hstep]
          exact h
      | cons f r =>
          have hstep : step st (Op.openCluster l) =
              { st with stack := { kind := .cluster l, childrenRev := [] }
                          :: st.stack } := by
            simp [step, applyOp, openCluster, hst]
          rw [hstep, hst]
          rw [hst] at h
          simp only [shapeOK, Frame.isDiagram, Bool.not_false, Bool.true_and]
          exact h
  | createNode l c =>
      cases hst : st.stack with
      | nil =>
          have hstep : step st (Op.createNode l c) = st := by
            simp [step, applyOp, createNode, hst]
          rw [hstep]
          exact h
      | cons f r =>
          by_cases hc : c ∈ recognizedCategories
          · have hstep : step st (Op.createNode l c) =
                { st with
                    stack := { f with childrenRev :=
                                 CTree.node st.nextId l c :: f.childrenRev }
                               :: r,
                    nextId := st.nextId + 1,
                    nodeIds := st.nodeIds ++ [st.nextId] } := by
              simp [step, applyOp, createNode, hst, hc]
            rw [hstep]
            rw [hst] at h
            have hsame : Frame.isDiagram
                { f with childrenRev := CTree.node st.nextId l c
                           :: f.childrenRev } = f.isDiagram := rfl
            rw [shapeOK_cons_congr hsame r]
            exact h
          · have hstep : step st (Op.createNode l c) = st := by
              simp [step, applyOp, createNode, hst, hc]
            rw [hstep]
            exact h
  | connect a b e =>
      have hs := connect_stack a b e st
      have hstack : (step st (Op.connect a b e)).stack = st.stack := hs
      rw [hstack]
      exact h
  | close =>
      cases hst : st.stack with
      | nil =>
          have hstep : step st Op.close = st := by
            simp [step, applyOp, close, hst]
          rw [hstep]
          exact h
      | cons f r =>
          cases hk : f.kind with
          | cluster l =>
              cases r with
              | nil =>
                  have hstep : step st Op.close = st := by
                    simp [step, applyOp, close, hst, hk]
                  rw [hstep]
                  exact h
              | cons g r2 =>
                  have hstep : step st Op.close =
                      { st with stack :=
                          { g with childrenRev :=
                              CTree.cluster l (forestOfRev f.childrenRev)
                                :: g.childrenRev } :: r2 } := by
                    simp [step, applyOp, close, hst, hk]
                  rw [hstep]
                  rw [hst] at h
                  simp only [shapeOK, Bool.and_eq_true] at h
                  have hsame : Frame.isDiagram
                      { g with childrenRev :=
                          CTree.cluster l (forestOfRev f.childrenRev)
                            :: g.childrenRev } = g.isDiagram := rfl
                  rw [shapeOK_cons_congr hsame r2]
                  exact h.2
          | diagram t d fn =>
              have hstep : (step st Op.close).stack = r := by
                simp [step, applyOp, close, hst, hk]
              rw [hstep]
              rw [hst] at h
              cases r with
              | nil => rfl
              | cons g r2 =>
                  exfalso
                  simp [shapeOK, Frame.isDiagram, hk] at h

theorem runOps_cons (op : Op) (ops : List Op) (s : BuildState) :
    runOps (op :: ops) s = runOps ops (step s op) := rfl

theorem runOps_shapeOK_from (ops : List Op) :
    ∀ s : BuildState, shapeOK s.stack = true →
      shapeOK (runOps ops s).stack = true := by
  induction ops with
  | nil => intro s hs; exact hs
  | cons op ops ih =>
      intro s hs
      rw [runOps_cons]
      exact ih (step s op) (step_shapeOK op s hs)

/-- Modelled from the spec: the chained composition a >> Edge(attrs) >> b used
throughout the source files (spec sections 4.4 and 9): the Edge operand
carries attributes only, and the chain performs one connect of its two
endpoints. -/
def chainEdge (a : EndPt) (e : Attrs) (b : EndPt) (st : BuildState) :
    Option Err × BuildState := connect a b e st

theorem runOps_connect_loop (x : Nat) (l : List Nat) (a : Attrs) :
    ∀ st : BuildState, st.stack ≠ [] → st.nodeIds.contains x = true →
      (∀ n ∈ l, st.nodeIds.contains n = true) →
      runOps (l.map (fun n => Op.connect (.single x) (.single n) a)) st =
        { st with edges := st.edges ++ l.map (fun n => Edge.mk x n a) } := by
  induction l with
  | nil =>
      intro st h1 h2 h3
      simp [runOps]
  | cons n ns ih =>
      intro st h1 h2 h3
      rw [List.map_cons, runOps_cons]
      have hstep : step st (Op.connect (.single x) (.single n) a) =
          { st with edges := st.edges ++ [Edge.mk x n a] } := by
        have hc := connect_single_single x n a st h1 h2 (h3 n (by simp))
        simp [step, applyOp, hc]
      rw [hstep]
      have ihst := ih { st with edges := st.edges ++ [Edge.mk x n a] }
        h1 h2 (fun m hm => h3 m (by simp [hm]))
      rw [ihst]
      simp

/-- Demonstration construction sequence, following the shape of
infrastructure_diagram.py: one Diagram, a node, a Cluster with two nodes,
and a broadcast connect. Used by the witnesses below. -/
def demoAttrs : Attrs :=
  { label := some "Port 80", color := some "blue", style := none,
    direction := none }

def demoOps : List Op :=
  [Op.openDiagram "MediaCMS Infrastructure" "TB" "mediacms_infrastructure",
   Op.createNode "Application Load Balancer" "ELB",
   Op.openCluster "ECS Fargate Cluster",
   Op.createNode "ECS Task 1" "Fargate",
   Op.createNode "ECS Task 2" "Fargate",
   Op.close,
   Op.connect (.single 0) (.seq [1, 2]) demoAttrs,
   Op.close]

/-- A state with one open Diagram and four committed node handles. -/
def demoState : BuildState :=
  { stack := [{ kind := .diagram "D" "TB" "d", childrenRev := [] }],
    nextId := 4, nodeIds := [0, 1, 2, 3], edges := [], images := [] }

def dashedGray : Attrs :=
  { label := none, color := some "gray", style := some "dashed",
    direction := none }

/-- C1: a connect call pairing a single Node handle with an ordered sequence
of k Node handles (on either side) and attribute set attrs appends exactly
k edges to the Diagram edge list, one per sequence element, in the sequence
order, each carrying the identical attrs. -/
theorem claim_C1_broadcast (x : Nat) (l : List Nat) (a : Attrs)
    (st : BuildState) (hstack : st.stack ≠ [])
    (hx : st.nodeIds.contains x = true)
    (hl : ∀ n ∈ l, st.nodeIds.contains n = true) :
    connect (.single x) (.seq l) a st =
      (none, { st with edges := st.edges ++ l.map (fun n => Edge.mk x n a) })
    ∧ connect (.seq l) (.single x) a st =
      (none, { st with edges := st.edges ++ l.map (fun n => Edge.mk n x a) })
    := ⟨connect_single_seq x l a st hstack hx hl,
        connect_seq_single l x a st hstack hx hl⟩

/-- Witness for C1: connect(node 0, [1, 2, 3], attrs) on a concrete open
state yields exactly the 3 edges (0,1), (0,2), (0,3) in that order. -/
theorem claim_C1_witness :
    (connect (.single 0) (.seq [1, 2, 3]) demoAttrs demoState).2.edges =
      [Edge.mk 0 1 demoAttrs, Edge.mk 0 2 demoAttrs, Edge.mk 0 3 demoAttrs]
    := by
  have h := claim_C1_broadcast 0 [1, 2, 3] demoAttrs demoState
    (by simp [demoState]) rfl (by decide)
  rw [h.1]
  rfl

/-- C2: a connect call in which both endpoints are sequences fails with a
validation error and leaves the state, in particular the edge list,
unchanged: it is never zipped or cross-producted. -/
theorem claim_C2_seq_seq_rejected (as bs : List Nat) (a : Attrs)
    (st : BuildState) :
    connect (.seq as) (.seq bs) a st = (some .validationError, st) := rfl

/-- C3: opening a Diagram while one is open fails with ScopeConflict and
leaves the builder state exactly as it was, and closing with no open frame
fails with ScopeConflict and leaves the state exactly as it was. -/
theorem claim_C3_scope_conflicts_atomic :
    (∀ (t d fn : String) (st : BuildState), st.stack ≠ [] →
        openDiagram t d fn st = (some .scopeConflict, st))
    ∧ (∀ st : BuildState, st.stack = [] →
        close st = (some .scopeConflict, st)) := by
  constructor
  · intro t d fn st h
    match hst : st.stack with
    | [] => exact absurd hst h
    | f :: r => simp [openDiagram, hst]
  · intro st h
    simp [close, h]

theorem claim_C3_witness :
    openDiagram "X" "LR" "x" demoState = (some .scopeConflict, demoState)
    ∧ close initState = (some .scopeConflict, initState) :=
  ⟨claim_C3_scope_conflicts_atomic.1 "X" "LR" "x" demoState
     (by simp [demoState]),
   claim_C3_scope_conflicts_atomic.2 initState rfl⟩

/-- C4: in every reachable state the scope stack, from bottom to top, has
the shape Diagram then Clusters; openCluster fails with ScopeConflict when
no Diagram is open and otherwise pushes a Cluster frame on top. -/
theorem claim_C4_stack_shape :
    (∀ ops : List Op, shapeOK (runOps ops initState).stack = true)
    ∧ (∀ (l : String) (st : BuildState), st.stack = [] →
        openCluster l st = (some .scopeConflict, st))
    ∧ (∀ (l : String) (st : BuildState), st.stack ≠ [] →
        openCluster l st =
          (none, { st with stack :=
                     { kind := .cluster l, childrenRev := [] } :: st.stack }))
    := by
  refine ⟨fun ops => runOps_shapeOK_from ops initState rfl, ?_, ?_⟩
  · intro l st h
    simp [openCluster, h]
  · intro l st h
    match hst : st.stack with
    | [] => exact absurd hst h
    | f :: r => simp [openCluster, hst]

theorem claim_C4_witness :
    shapeOK (runOps demoOps initState).stack = true
    ∧ openCluster "C" initState = (some .scopeConflict, initState)
    ∧ openCluster "C" demoState =
        (none, { demoState with stack :=
                   { kind := .cluster "C", childrenRev := [] }
                     :: demoState.stack }) :=
  ⟨claim_C4_stack_shape.1 demoOps,
   claim_C4_stack_shape.2.1 "C" initState rfl,
   claim_C4_stack_shape.2.2 "C" demoState (by simp [demoState])⟩

/-- C5: serialization is deterministic: two runs of the identical
construction sequence produce byte-identical textual output (the model is a
pure function of the construction sequence, so the emitted descriptions of
the two runs coincide). -/
theorem claim_C5_deterministic (ops : List Op)
    (out1 out2 : List (String × String))
    (h1 : out1 = (runOps ops initState).images)
    (h2 : out2 = (runOps ops initState).images) : out1 = out2 :=
  h1.trans h2.symm

theorem claim_C5_witness :
    (runOps demoOps initState).images = (runOps demoOps initState).images :=
  claim_C5_deterministic demoOps _ _ rfl rfl

/-- C6: the serializer walks the Cluster tree depth-first in creation order,
emitting one named sub-region per Cluster nested exactly as the tree nests
and each vertex inside its owning sub-region: reading the emitted lines back
structurally recovers the tree exactly, and a chain of N nested Clusters
yields N nested sub-regions carrying the Cluster labels in order. -/
theorem claim_C6_tree_serialization :
    (∀ f : CForest, decodeForest (serializeForest f) = some f)
    ∧ (∀ (ls : List String) (t : CTree),
        serializeTree (clusterChain ls t) =
          ls.map SLine.subOpen ++ serializeTree t ++
            List.replicate ls.length SLine.subClose) :=
  ⟨decodeForest_serializeForest, serializeTree_clusterChain⟩

/-- C7: the serializer emits exactly one directed connection per Edge of the
finalized Diagram, in insertion order, carrying that Edge attributes, with
no deduplication: the connection lines of the output are exactly the edge
list mapped to lines, so k stored edges yield k connection lines. -/
theorem claim_C7_edges_serialized (d : FinalDiagram) :
    (serialize d).filter isConn = d.edges.map Edge.line
    ∧ ((serialize d).filter isConn).length = d.edges.length := by
  refine ⟨serialize_filter_isConn d, ?_⟩
  rw [serialize_filter_isConn d, List.length_map]

/-- C8: createNode fails with UnknownCategory when the category is not in
the recognized taxonomy, and every operation that raises an error leaves the
builder state exactly as it was: in particular no image is emitted and the
scope stack keeps its previous, consistent shape. -/
theorem claim_C8_errors_abort :
    (∀ (l c : String) (st : BuildState), st.stack ≠ [] →
        recognizedCategories.contains c = false →
        createNode l c st = (some .unknownCategory, st))
    ∧ (∀ (op : Op) (st : BuildState) (e : Err),
        (applyOp op st).1 = some e →
          (applyOp op st).2 = st ∧ (applyOp op st).2.images = st.images) := by
  constructor
  · intro l c st hstack hc
    match hst : st.stack with
    | [] => exact absurd hst hstack
    | f :: r =>
        have hc2 : ¬ (c ∈ recognizedCategories) := by simpa using hc
        simp [createNode, hst, hc2]
  · intro op st e h
    have h2 := applyOp_error_unchanged op st e h
    exact ⟨h2, by rw [h2]⟩

theorem claim_C8_witness :
    createNode "X" "NotACategory" demoState =
      (some .unknownCategory, demoState)
    ∧ (applyOp (Op.openCluster "C") initState).2 = initState :=
  ⟨claim_C8_errors_abort.1 "X" "NotACategory" demoState (by simp [demoState])
     rfl,
   (claim_C8_errors_abort.2 (Op.openCluster "C") initState .scopeConflict
     rfl).1⟩

/-- C9: broadcast connect is equivalent to per-element iteration: one call
of connect(x, [n1..nk], attrs) leaves the builder in exactly the state the
loop of k single connects reaches, same endpoints, same order, same attrs. -/
theorem claim_C9_broadcast_refines_loop (x : Nat) (l : List Nat) (a : Attrs)
    (st : BuildState) (hstack : st.stack ≠ [])
    (hx : st.nodeIds.contains x = true)
    (hl : ∀ n ∈ l, st.nodeIds.contains n = true) :
    runOps (l.map (fun n => Op.connect (.single x) (.single n) a)) st =
      (connect (.single x) (.seq l) a st).2 := by
  rw [runOps_connect_loop x l a st hstack hx hl]
  rw [connect_single_seq x l a st hstack hx hl]

theorem claim_C9_witness :
    runOps ([1, 2, 3].map
        (fun n => Op.connect (.single 0) (.single n) demoAttrs)) demoState =
      (connect (.single 0) (.seq [1, 2, 3]) demoAttrs demoState).2 :=
  claim_C9_broadcast_refines_loop 0 [1, 2, 3] demoAttrs demoState
    (by simp [demoState]) rfl (by decide)

/-- C10: a chained connect a >> Edge(attrs) >> b between single Node handles
appends exactly one edge from a to b carrying attrs; the Edge operand
contributes no vertex (stack and id counter unchanged), and every attribute
is optional, the produced edge carrying exactly the provided ones. -/
theorem claim_C10_chain_single_edge (x y : Nat) (e : Attrs)
    (st : BuildState) (hstack : st.stack ≠ [])
    (hx : st.nodeIds.contains x = true)
    (hy : st.nodeIds.contains y = true) :
    chainEdge (.single x) e (.single y) st =
      (none, { st with edges := st.edges ++ [Edge.mk x y e] })
    ∧ (chainEdge (.single x) e (.single y) st).2.stack = st.stack
    ∧ (chainEdge (.single x) e (.single y) st).2.nextId = st.nextId := by
  have h := connect_single_single x y e st hstack hx hy
  refine ⟨h, ?_, ?_⟩ <;> rw [chainEdge, h]

/-- Witness for C10: an edge with no label (only style and color), as in
nat >> Edge(style="dashed", color="gray") >> igw of the source. -/
theorem claim_C10_witness :
    chainEdge (.single 1) dashedGray (.single 2) demoState =
      (none, { demoState with edges :=
                 demoState.edges ++ [Edge.mk 1 2 dashedGray] }) :=
  (claim_C10_chain_single_edge 1 2 dashedGray demoState (by simp [demoState])
    rfl rfl).1

end DiagramsModel
